import Mathlib

/- Shallow embedding of generate_mail.py (repository Kell0x/generate_mail.py).
   Python values that may be a string, a list of strings, or something else
   (the claims use an integer) are modelled by PyVal; Python exceptions by
   PyError; the external message object of the independentsoft.msg library
   by MessageObj, whose Option fields record which fields the assembler has
   set.  A RunResult additionally records the trace of Recipient objects
   constructed before the run ended, so that claims about "constructing a
   recipient" can be settled. -/

inductive RecipientType where
  | TO : RecipientType
  | CC : RecipientType
deriving DecidableEq, Repr

inductive DisplayType where
  | MAIL_USER : DisplayType
deriving DecidableEq, Repr

inductive ObjectType where
  | MAIL_USER : ObjectType
deriving DecidableEq, Repr

inductive MessageFlag where
  | UNSENT : MessageFlag
deriving DecidableEq, Repr

inductive StoreSupportMask where
  | CREATE : StoreSupportMask
deriving DecidableEq, Repr

/- A Python value that is a string, a list of strings, or an integer (the
   representative of "neither a string nor a list" used by the claims). -/
inductive PyVal where
  | str : String → PyVal
  | list : List String → PyVal
  | int : Int → PyVal
deriving DecidableEq, Repr

inductive PyError where
  | typeError : String → PyError
  | assertionError : String → PyError
  | indexError : PyError
deriving DecidableEq, Repr

/- Decidable equality for Except results, used to evaluate the embedding
   on concrete inputs. -/
instance {e a : Type} [DecidableEq e] [DecidableEq a] : DecidableEq (Except e a) := fun x y =>
  match x, y with
  | Except.error u, Except.error v =>
    if h : u = v then Decidable.isTrue (congrArg Except.error h)
    else Decidable.isFalse (fun q => h (Except.error.inj q))
  | Except.error _, Except.ok _ => Decidable.isFalse (fun q => Except.noConfusion q)
  | Except.ok _, Except.error _ => Decidable.isFalse (fun q => Except.noConfusion q)
  | Except.ok u, Except.ok v =>
    if h : u = v then Decidable.isTrue (congrArg Except.ok h)
    else Decidable.isFalse (fun q => h (Except.ok.inj q))

/- The message of the TypeError raised at line 134 of the source. -/
def toTypeMsg : String :=
  "The variable \x27to\x27 must be an email address (str) or a list of email addresses (list)."

/- The message of the TypeError raised at line 148 of the source. -/
def ccTypeMsg : String :=
  "The variable \x27cc\x27 must be an email address (str) or a list of email addresses (list)."

/- Decimal digit characters, used to model the decimal formatting of a
   code point inside a numeric character reference. -/
def decDigit (m : Nat) : Char :=
  match m with
  | 0 => '0'
  | 1 => '1'
  | 2 => '2'
  | 3 => '3'
  | 4 => '4'
  | 5 => '5'
  | 6 => '6'
  | 7 => '7'
  | 8 => '8'
  | _ => '9'

/- Decimal digit list of a number, least significant digit produced last;
   the first argument is fuel bounding the number of digits, so the
   recursion is structural. -/
def decDigitsCore : Nat → Nat → List Char → List Char
  | 0, _, ds => ds
  | fuel + 1, n, ds =>
    if n / 10 = 0 then decDigit (n % 10) :: ds
    else decDigitsCore fuel (n / 10) (decDigit (n % 10) :: ds)

def decDigits (n : Nat) : List Char :=
  decDigitsCore (n + 1) n []

/- encode_html_characters, source lines 15 to 28:
   unencoded_str.encode(ascii, xmlcharrefreplace).decode().replace(LF, <br>).
   The ascii codec passes code points up to 127 through unchanged;
   xmlcharrefreplace turns every larger code point into a decimal numeric
   character reference. -/
def xmlcharref (c : Char) : List Char :=
  if c.toNat ≤ 127 then [c]
  else '&' :: '#' :: (decDigits c.toNat ++ [';'])

def asciiXmlEncode : List Char → List Char
  | [] => []
  | c :: rest => xmlcharref c ++ asciiXmlEncode rest

/- The replace step: the pattern is the single character LF, so Python
   str.replace substitutes each occurrence independently. -/
def replaceLF : List Char → List Char
  | [] => []
  | c :: rest => (if c = '\n' then ['<', 'b', 'r', '>'] else [c]) ++ replaceLF rest

def encode_html_characters (s : String) : String :=
  String.mk (replaceLF (asciiXmlEncode s.data))

/- validate_mail_address, source lines 31 to 44.  The regex is
   anchored with a caret and a dollar; re.match anchors at the start and the
   dollar matches at the end of the string or just before a newline that
   ends the string.  The character classes are embedded literally. -/
def isLocalChar (c : Char) : Bool :=
  c.isAlpha || c.isDigit || c == '.' || c == '_' || c == '%' || c == '+' || c == '-'

def isDomainChar (c : Char) : Bool :=
  c.isAlpha || c.isDigit || c == '.' || c == '-'

/- Full match of the domain tail of the regex: one or more domain
   characters, then a literal dot, then at least two letters.  Because the
   final letter run contains no dot, the regex can only succeed by splitting
   at the last dot of the input, which is what this function does (working
   on the reversed list: the maximal dot-free run at the end is the
   candidate top-level-domain segment). -/
def matchDomainFull (d : List Char) : Bool :=
  let rev := d.reverse
  let tldRev := rev.takeWhile (fun c => c != '.')
  let rest := rev.dropWhile (fun c => c != '.')
  if rest.head? = some '.' then
    decide (2 ≤ tldRev.length) && tldRev.all (fun c => c.isAlpha) &&
      !rest.tail.isEmpty && rest.tail.all isDomainChar
  else false

/- Full match of the regex body: one or more local characters, a literal
   at sign, then the domain tail.  Because the local class excludes the at
   sign, a successful match consumes exactly the characters before the
   first at sign of the input. -/
def matchEmailFull (cs : List Char) : Bool :=
  let localSeg := cs.takeWhile (fun c => c != '@')
  let rest := cs.dropWhile (fun c => c != '@')
  if rest.head? = some '@' then
    !localSeg.isEmpty && localSeg.all isLocalChar && matchDomainFull rest.tail
  else false

/- re.match with the dollar anchor: the pattern must cover the whole
   string, or the whole string minus a single trailing newline. -/
def pythonDollarMatch (s : String) : Bool :=
  matchEmailFull s.data ||
    (match s.data.getLast? with
     | some c => c == '\n' && matchEmailFull s.data.dropLast
     | none => false)

def validate_mail_address (s : String) : Except String Unit :=
  if pythonDollarMatch s then Except.ok ()
  else Except.error (s ++ " is not a valid mail address.")

/- prepare_recipients, source lines 47 to 68.  The Recipient object is
   constructed only after validation succeeds. -/
structure RecipientRec where
  address_type : String
  display_type : DisplayType
  object_type : ObjectType
  display_name : String
  email_address : String
  recipient_type : RecipientType
deriving DecidableEq, Repr

def mkRecipient (recipient_mail : String) (recipient_type : RecipientType) : RecipientRec :=
  { address_type := "SMTP"
    display_type := DisplayType.MAIL_USER
    object_type := ObjectType.MAIL_USER
    display_name := recipient_mail
    email_address := recipient_mail
    recipient_type := recipient_type }

def prepare_recipients (recipient_mail : String) (recipient_type : RecipientType) :
    Except PyError RecipientRec :=
  match validate_mail_address recipient_mail with
  | Except.error msg => Except.error (PyError.assertionError msg)
  | Except.ok _ => Except.ok (mkRecipient recipient_mail recipient_type)

/- generate_msg_filename, source lines 71 to 100.  The current time is
   injected as an explicit parameter; strftime with format
   percent-Y percent-m percent-d underscore percent-H percent-M percent-S
   zero-pads the year to four digits and the other fields to two. -/
structure DateTime where
  year : Nat
  month : Nat
  day : Nat
  hour : Nat
  minute : Nat
  second : Nat
deriving DecidableEq, Repr

def pad2 (n : Nat) : String :=
  if n < 10 then "0" ++ toString n else toString n

def pad4 (n : Nat) : String :=
  if n < 10 then "000" ++ toString n
  else if n < 100 then "00" ++ toString n
  else if n < 1000 then "0" ++ toString n
  else toString n

def strftimeYmdHMS (t : DateTime) : String :=
  pad4 t.year ++ pad2 t.month ++ pad2 t.day ++ "_" ++
    pad2 t.hour ++ pad2 t.minute ++ pad2 t.second

/- recipients.split at the at sign, index 0: the prefix before the first
   at sign, or the whole string when there is none. -/
def beforeAt (s : String) : String :=
  String.mk (s.data.takeWhile (fun c => c != '@'))

/- subject.replace(space, underscore) sliced to the first 30 characters. -/
def subjectClean (subject : String) : String :=
  String.mk ((subject.data.map (fun c => if c = ' ' then '_' else c)).take 30)

def generate_msg_filename (now : DateTime) (recipients : PyVal) (subject : String) :
    Except PyError String :=
  match recipients with
  | PyVal.list [] => Except.error PyError.indexError
  | PyVal.list (r :: rs) =>
      let first_recipient := beforeAt r
      let recipients_str :=
        if (r :: rs).length > 1 then first_recipient ++ "+others" else first_recipient
      Except.ok (strftimeYmdHMS now ++ "_" ++ recipients_str ++ "_" ++
        subjectClean subject ++ ".msg")
  | PyVal.str s =>
      Except.ok (strftimeYmdHMS now ++ "_" ++
        (if s.data.contains '@' then beforeAt s else s) ++ "_" ++
        subjectClean subject ++ ".msg")
  | PyVal.int _ =>
      Except.error (PyError.typeError "argument of type \x27int\x27 is not iterable")

/- The external message object.  Option fields distinguish a field the
   assembler never set from one set to an empty value; saved records the
   filename passed to the save operation, none meaning no file was written. -/
structure MessageObj where
  subject : Option String
  body_html_text : Option String
  body_rtf : Option (List Nat)
  display_to : Option String
  display_cc : Option String
  recipients : List RecipientRec
  message_flags : List MessageFlag
  store_support_masks : List StoreSupportMask
  saved : Option String
deriving DecidableEq, Repr

def MessageObj.blank : MessageObj :=
  { subject := none, body_html_text := none, body_rtf := none,
    display_to := none, display_cc := none, recipients := [],
    message_flags := [], store_support_masks := [], saved := none }

/- Processing of one field of generate_mail: the Recipient objects
   constructed (in construction order, also kept when a later element
   aborts the loop), the display string assigned, and the error if any. -/
structure FieldResult where
  constructed : List RecipientRec
  display : String
  error : Option PyError
deriving DecidableEq, Repr

def processRecipientList (items : List String) (rt : RecipientType) :
    List RecipientRec × Option PyError :=
  match items with
  | [] => ([], none)
  | a :: rest =>
    match prepare_recipients a rt with
    | Except.error e => ([], some e)
    | Except.ok rcp =>
      let p := processRecipientList rest rt
      (rcp :: p.1, p.2)

/- Source lines 124 to 134: the to field. -/
def processTo (to_ : PyVal) : FieldResult :=
  match to_ with
  | PyVal.str s =>
    match prepare_recipients s RecipientType.TO with
    | Except.error e => { constructed := [], display := "", error := some e }
    | Except.ok rcp => { constructed := [rcp], display := s, error := none }
  | PyVal.list l =>
    let p := processRecipientList l RecipientType.TO
    match p.2 with
    | some e => { constructed := p.1, display := "", error := some e }
    | none => { constructed := p.1, display := String.intercalate "; " l, error := none }
  | PyVal.int _ => { constructed := [], display := "", error := some (PyError.typeError toTypeMsg) }

/- Source lines 137 to 148: the cc field, guarded by cc != the empty
   string (true for every non-string value). -/
def processCc (cc : PyVal) : FieldResult :=
  if cc = PyVal.str "" then { constructed := [], display := "", error := none }
  else
    match cc with
    | PyVal.str s =>
      match prepare_recipients s RecipientType.CC with
      | Except.error e => { constructed := [], display := "", error := some e }
      | Except.ok rcp => { constructed := [rcp], display := s, error := none }
    | PyVal.list l =>
      let p := processRecipientList l RecipientType.CC
      match p.2 with
      | some e => { constructed := p.1, display := "", error := some e }
      | none => { constructed := p.1, display := String.intercalate "; " l, error := none }
    | PyVal.int _ => { constructed := [], display := "", error := some (PyError.typeError ccTypeMsg) }

/- str.encode with the utf-8 codec, modelled as the standard UTF-8 byte
   sequence of each code point. -/
def utf8Bytes (c : Char) : List Nat :=
  let n := c.toNat
  if n < 128 then [n]
  else if n < 2048 then [192 + n / 64, 128 + n % 64]
  else if n < 65536 then [224 + n / 4096, 128 + n / 64 % 64, 128 + n % 64]
  else [240 + n / 262144, 128 + n / 4096 % 64, 128 + n / 64 % 64, 128 + n % 64]

def strUtf8 (s : String) : List Nat :=
  List.flatten (s.data.map utf8Bytes)

/- The fixed RTF preamble of source line 153 (braces written with
   hexadecimal escapes). -/
def rtfPreamble : String :=
  "\x7b\\rtf1\\ansi\\ansicpg1252\\fromhtml1 \\htmlrtf0 "

/- Source lines 151 to 167: the message object after every field has been
   assigned, before the save call. -/
def assembledMessage (to_ cc : PyVal) (subject body : String) : MessageObj :=
  { subject := some subject
    body_html_text := some (encode_html_characters body)
    body_rtf := some (strUtf8 (rtfPreamble ++ encode_html_characters body ++ "\x7d"))
    display_to := some (processTo to_).display
    display_cc := some (processCc cc).display
    recipients := (processTo to_).constructed ++ (processCc cc).constructed
    message_flags := [MessageFlag.UNSENT]
    store_support_masks := [StoreSupportMask.CREATE]
    saved := none }

/- The outcome of one call of generate_mail: the state of the external
   message object when the call ends, the trace of Recipient objects
   constructed, and the uncaught exception if any. -/
structure RunResult where
  message : MessageObj
  constructed : List RecipientRec
  error : Option PyError
deriving DecidableEq, Repr

/- generate_mail, source lines 103 to 172.  The to field is processed
   first, then the cc field, then the bodies are encoded and every message
   field is assigned, then the filename is derived from the original to
   value and the message is saved.  An exception anywhere aborts the rest. -/
def generate_mail (now : DateTime) (to_ cc : PyVal) (subject body : String) : RunResult :=
  match (processTo to_).error with
  | some e =>
    { message := MessageObj.blank, constructed := (processTo to_).constructed, error := some e }
  | none =>
    match (processCc cc).error with
    | some e =>
      { message := MessageObj.blank,
        constructed := (processTo to_).constructed ++ (processCc cc).constructed,
        error := some e }
    | none =>
      match generate_msg_filename now to_ subject with
      | Except.error e =>
        { message := assembledMessage to_ cc subject body,
          constructed := (processTo to_).constructed ++ (processCc cc).constructed,
          error := some e }
      | Except.ok fn =>
        { message := { assembledMessage to_ cc subject body with saved := some fn },
          constructed := (processTo to_).constructed ++ (processCc cc).constructed,
          error := none }

/- Classification of errors used by claim C4: validation errors and type
   errors are the failures of steps 1 to 3 of the assembler. -/
def PyError.isValidationOrType : PyError → Bool
  | PyError.typeError _ => true
  | PyError.assertionError _ => true
  | PyError.indexError => false

/- The canonical email shape of the specification: the regex anchored at
   both ends over the whole string (no trailing-newline tolerance). -/
def canonicalMailShape (s : String) : Bool :=
  matchEmailFull s.data

/- The local part of a candidate address: the characters before the first
   at sign (the whole string when there is none). -/
def localSegment (s : String) : List Char :=
  s.data.takeWhile (fun c => c != '@')

/- The domain of a candidate address: the characters after the first
   at sign. -/
def domainSegment (s : String) : List Char :=
  (s.data.dropWhile (fun c => c != '@')).tail

/- Per-character description of the encoder used by the amended claim C3:
   a line feed becomes the HTML break marker, a code point above 127
   becomes its decimal numeric character reference, everything else is
   kept unchanged. -/
def amendedEncodeChar (c : Char) : List Char :=
  if c = '\n' then ['<', 'b', 'r', '>']
  else if 127 < c.toNat then '&' :: '#' :: (decDigits c.toNat ++ [';'])
  else [c]

/- Lemmas about the body encoder. -/

theorem decDigit_ne_lf (m : Nat) : decDigit m ≠ '\n' := by
  unfold decDigit
  split <;> decide

theorem decDigitsCore_ne_lf (fuel : Nat) :
    ∀ (n : Nat) (acc : List Char), (∀ c ∈ acc, c ≠ '\n') →
      ∀ c ∈ decDigitsCore fuel n acc, c ≠ '\n' := by
  induction fuel with
  | zero => intro n acc hacc c hc; exact hacc c hc
  | succ fuel ih =>
    intro n acc hacc c hc
    simp only [decDigitsCore] at hc
    split at hc
    · rcases List.mem_cons.mp hc with rfl | hmem
      · exact decDigit_ne_lf _
      · exact hacc _ hmem
    · refine ih _ _ ?_ c hc
      intro d hd
      rcases List.mem_cons.mp hd with rfl | hmem
      · exact decDigit_ne_lf _
      · exact hacc _ hmem

theorem decDigits_ne_lf (n : Nat) : ∀ c ∈ decDigits n, c ≠ '\n' := by
  intro c hc
  exact decDigitsCore_ne_lf (n + 1) n [] (fun d hd => absurd hd (List.not_mem_nil d)) c hc

theorem replaceLF_append (a b : List Char) :
    replaceLF (a ++ b) = replaceLF a ++ replaceLF b := by
  induction a with
  | nil => rfl
  | cons c t ih => simp [replaceLF, ih]

theorem replaceLF_of_no_lf (cs : List Char) (h : ∀ c ∈ cs, c ≠ '\n') :
    replaceLF cs = cs := by
  induction cs with
  | nil => rfl
  | cons c t ih =>
    have hc : c ≠ '\n' := h c (List.mem_cons_self c t)
    simp [replaceLF, hc, ih (fun d hd => h d (List.mem_cons_of_mem _ hd))]

theorem replaceLF_xmlcharref (c : Char) :
    replaceLF (xmlcharref c) = amendedEncodeChar c := by
  unfold xmlcharref amendedEncodeChar
  by_cases h : c.toNat ≤ 127
  · rw [if_pos h, if_neg (by omega : ¬ 127 < c.toNat)]
    by_cases hn : c = '\n'
    · simp [replaceLF, hn]
    · simp [replaceLF, hn]
  · have hn : c ≠ '\n' := by
      intro e
      rw [e] at h
      exact h (by decide)
    rw [if_neg h, if_neg hn, if_pos (by omega : 127 < c.toNat)]
    apply replaceLF_of_no_lf
    intro d hd
    simp only [List.mem_cons, List.mem_append, List.mem_singleton,
      List.not_mem_nil, or_false] at hd
    rcases hd with rfl | rfl | hd | rfl
    · decide
    · decide
    · exact decDigits_ne_lf _ d hd
    · decide

theorem encode_eq_amended (cs : List Char) :
    replaceLF (asciiXmlEncode cs) = List.flatten (cs.map amendedEncodeChar) := by
  induction cs with
  | nil => rfl
  | cons c t ih =>
    simp [asciiXmlEncode, replaceLF_append, replaceLF_xmlcharref, ih]

/- Lemmas about the address validator. -/

theorem mem_of_mem_dropWhile {p : Char → Bool} {l : List Char} {a : Char}
    (h : a ∈ l.dropWhile p) : a ∈ l := by
  induction l with
  | nil => exact absurd h (List.not_mem_nil a)
  | cons b t ih =>
    rw [List.dropWhile_cons] at h
    split at h
    · exact List.mem_cons_of_mem _ (ih h)
    · exact h

theorem mem_of_mem_dropLast {a : Char} {l : List Char} (h : a ∈ l.dropLast) : a ∈ l := by
  exact (List.dropLast_sublist l).mem h

theorem takeWhile_append_last {p : Char → Bool} (cs : List Char) (x : Char)
    (h : ∃ c ∈ cs, p c = false) :
    (cs ++ [x]).takeWhile p = cs.takeWhile p := by
  induction cs with
  | nil =>
    rcases h with ⟨c, hc, _⟩
    cases hc
  | cons a t ih =>
    by_cases hp : p a = true
    · rcases h with ⟨c, hc, hcf⟩
      rcases List.mem_cons.mp hc with rfl | hct
      · rw [hp] at hcf
        cases hcf
      · simp [List.takeWhile_cons, hp, ih ⟨c, hct, hcf⟩]
    · simp [List.takeWhile_cons, Bool.eq_false_iff.mpr hp]

theorem dropWhile_append_last {p : Char → Bool} (cs : List Char) (x : Char)
    (h : ∃ c ∈ cs, p c = false) :
    (cs ++ [x]).dropWhile p = cs.dropWhile p ++ [x] := by
  induction cs with
  | nil =>
    rcases h with ⟨c, hc, _⟩
    cases hc
  | cons a t ih =>
    by_cases hp : p a = true
    · rcases h with ⟨c, hc, hcf⟩
      rcases List.mem_cons.mp hc with rfl | hct
      · rw [hp] at hcf
        cases hcf
      · simp [List.dropWhile_cons, hp, ih ⟨c, hct, hcf⟩]
    · simp [List.dropWhile_cons, Bool.eq_false_iff.mpr hp]

theorem matchEmailFull_parts {cs : List Char} (h : matchEmailFull cs = true) :
    ∃ d, cs.dropWhile (fun c => c != '@') = '@' :: d ∧
      (cs.takeWhile (fun c => c != '@')).isEmpty = false ∧
      (cs.takeWhile (fun c => c != '@')).all isLocalChar = true ∧
      matchDomainFull d = true := by
  simp only [matchEmailFull] at h
  split at h
  case isTrue hh =>
    cases hl : cs.dropWhile (fun c => c != '@') with
    | nil =>
      rw [hl] at hh
      cases hh
    | cons a t =>
      rw [hl] at hh
      simp only [List.head?_cons, Option.some.injEq] at hh
      subst hh
      rw [hl] at h
      simp only [Bool.and_eq_true, Bool.not_eq_true'] at h
      exact ⟨t, rfl, h.1.1, h.1.2, by simpa using h.2⟩
  case isFalse => cases h

theorem matchDomainFull_dot {d : List Char} (h : matchDomainFull d = true) : '.' ∈ d := by
  simp only [matchDomainFull] at h
  split at h
  case isTrue hh =>
    have hmem : '.' ∈ d.reverse.dropWhile (fun c => c != '.') := by
      cases hl : d.reverse.dropWhile (fun c => c != '.') with
      | nil =>
        rw [hl] at hh
        cases hh
      | cons a t =>
        rw [hl] at hh
        simp only [List.head?_cons, Option.some.injEq] at hh
        subst hh
        exact List.mem_cons_self _ _
    exact List.mem_reverse.mp (mem_of_mem_dropWhile hmem)
  case isFalse => cases h

theorem matchEmailFull_at_mem {cs : List Char} (h : matchEmailFull cs = true) : '@' ∈ cs := by
  rcases matchEmailFull_parts h with ⟨d, hd, -, -, -⟩
  exact mem_of_mem_dropWhile (hd ▸ List.mem_cons_self '@' d)

theorem not_matchFull_of_noAt {cs : List Char} (h : '@' ∉ cs) : matchEmailFull cs = false := by
  cases hm : matchEmailFull cs with
  | false => rfl
  | true => exact absurd (matchEmailFull_at_mem hm) h

theorem not_matchFull_of_noDot {cs : List Char}
    (h : '.' ∉ (cs.dropWhile (fun c => c != '@')).tail) : matchEmailFull cs = false := by
  cases hm : matchEmailFull cs with
  | false => rfl
  | true =>
    rcases matchEmailFull_parts hm with ⟨d, hd, -, -, hdom⟩
    rw [hd] at h
    exact absurd (matchDomainFull_dot hdom) h

theorem not_matchFull_of_badLocal {cs : List Char}
    (h : ∃ c ∈ cs.takeWhile (fun c => c != '@'), isLocalChar c = false) :
    matchEmailFull cs = false := by
  cases hm : matchEmailFull cs with
  | false => rfl
  | true =>
    rcases matchEmailFull_parts hm with ⟨d, -, -, hall, -⟩
    rcases h with ⟨c, hc, hcf⟩
    rw [List.all_eq_true] at hall
    rw [hall c hc] at hcf
    cases hcf

theorem not_matchFull_dropLast_of_noDot {cs : List Char}
    (h : '.' ∉ (cs.dropWhile (fun c => c != '@')).tail) :
    matchEmailFull cs.dropLast = false := by
  cases hm : matchEmailFull cs.dropLast with
  | false => rfl
  | true =>
    exfalso
    have hAt : '@' ∈ cs.dropLast := matchEmailFull_at_mem hm
    rcases matchEmailFull_parts hm with ⟨d, hd, -, -, hdom⟩
    have hcs : cs ≠ [] := by
      intro e
      rw [e] at hAt
      cases hAt
    have hsplit := List.dropLast_append_getLast hcs
    have hdw : cs.dropWhile (fun c => c != '@') = ('@' :: d) ++ [cs.getLast hcs] := by
      conv_lhs => rw [← hsplit]
      rw [dropWhile_append_last _ _ ⟨'@', hAt, by decide⟩, hd]
    apply h
    rw [hdw]
    exact List.mem_append_left _ (matchDomainFull_dot hdom)

theorem not_matchFull_dropLast_of_badLocal {cs : List Char}
    (h : ∃ c ∈ cs.takeWhile (fun c => c != '@'), isLocalChar c = false) :
    matchEmailFull cs.dropLast = false := by
  cases hm : matchEmailFull cs.dropLast with
  | false => rfl
  | true =>
    exfalso
    have hAt : '@' ∈ cs.dropLast := matchEmailFull_at_mem hm
    rcases matchEmailFull_parts hm with ⟨d, -, -, hall, -⟩
    have hcs : cs ≠ [] := by
      intro e
      rw [e] at hAt
      cases hAt
    have hsplit := List.dropLast_append_getLast hcs
    have htw : cs.takeWhile (fun c => c != '@') = cs.dropLast.takeWhile (fun c => c != '@') := by
      conv_lhs => rw [← hsplit]
      rw [takeWhile_append_last _ _ ⟨'@', hAt, by decide⟩]
    rcases h with ⟨c, hc, hcf⟩
    rw [htw] at hc
    rw [List.all_eq_true] at hall
    rw [hall c hc] at hcf
    cases hcf

theorem pythonDollarMatch_false (s : String)
    (h1 : matchEmailFull s.data = false)
    (h2 : matchEmailFull s.data.dropLast = false) :
    pythonDollarMatch s = false := by
  unfold pythonDollarMatch
  rw [h1]
  cases hl : s.data.getLast? with
  | none => rfl
  | some c => simp [h2]

theorem validate_error_of_false (s : String) (h : pythonDollarMatch s = false) :
    validate_mail_address s = Except.error (s ++ " is not a valid mail address.") := by
  simp [validate_mail_address, h]

/- Lemmas about recipient processing and the assembler. -/

theorem prepare_ok_shape {a : String} {rt : RecipientType} {r : RecipientRec}
    (h : prepare_recipients a rt = Except.ok r) : r = mkRecipient a rt := by
  unfold prepare_recipients at h
  cases hv : validate_mail_address a with
  | error m =>
    rw [hv] at h
    cases h
  | ok u =>
    rw [hv] at h
    cases h
    rfl

theorem prepare_ok_of_match {a : String} (rt : RecipientType)
    (h : pythonDollarMatch a = true) :
    prepare_recipients a rt = Except.ok (mkRecipient a rt) := by
  simp [prepare_recipients, validate_mail_address, h]

theorem processRecipientList_types (l : List String) (rt : RecipientType) :
    ∀ rcp ∈ (processRecipientList l rt).1, rcp.recipient_type = rt := by
  induction l with
  | nil =>
    intro rcp h
    cases h
  | cons a t ih =>
    intro rcp h
    rw [processRecipientList] at h
    cases hp : prepare_recipients a rt with
    | error e =>
      rw [hp] at h
      cases h
    | ok r =>
      rw [hp] at h
      simp only [List.mem_cons] at h
      rcases h with rfl | h
      · rw [prepare_ok_shape hp]
        rfl
      · exact ih rcp h

theorem processTo_types (v : PyVal) :
    ∀ rcp ∈ (processTo v).constructed, rcp.recipient_type = RecipientType.TO := by
  cases v with
  | str s =>
    intro rcp h
    simp only [processTo] at h
    cases hp : prepare_recipients s RecipientType.TO with
    | error e =>
      rw [hp] at h
      cases h
    | ok r =>
      rw [hp] at h
      simp only [List.mem_singleton] at h
      subst h
      rw [prepare_ok_shape hp]
      rfl
  | list l =>
    intro rcp h
    simp only [processTo] at h
    rcases h2 : (processRecipientList l RecipientType.TO).2 with _ | e <;>
      rw [h2] at h <;>
      exact processRecipientList_types l _ rcp h
  | int n =>
    intro rcp h
    cases h

theorem processRecipientList_ok (l : List String) (rt : RecipientType)
    (h : l.all (fun a => pythonDollarMatch a) = true) :
    processRecipientList l rt = (l.map (fun a => mkRecipient a rt), none) := by
  induction l with
  | nil => rfl
  | cons a t ih =>
    rw [List.all_cons, Bool.and_eq_true] at h
    simp [processRecipientList, prepare_ok_of_match rt h.1, ih h.2]

theorem filename_error_shape {now : DateTime} {v : PyVal} {subject : String} {e : PyError}
    (hTo : (processTo v).error = none)
    (h : generate_msg_filename now v subject = Except.error e) : e = PyError.indexError := by
  cases v with
  | str s => cases h
  | list l =>
    cases l with
    | nil =>
      cases h
      rfl
    | cons r rs => cases h
  | int n => cases hTo

/-- Claim C2: every string matching the canonical email shape (anchored at
both ends over the whole string) is accepted silently by
validate_mail_address, and every string missing an at sign, or missing a
dot in the domain, or containing a character outside the allowed local
class in the local part, is rejected with an error naming the offending
string. -/
theorem claim_C2 :
    (∀ s : String, canonicalMailShape s = true → validate_mail_address s = Except.ok ()) ∧
    (∀ s : String, '@' ∉ s.data →
      validate_mail_address s = Except.error (s ++ " is not a valid mail address.")) ∧
    (∀ s : String, '@' ∈ s.data → '.' ∉ domainSegment s →
      validate_mail_address s = Except.error (s ++ " is not a valid mail address.")) ∧
    (∀ s : String, (∃ c ∈ localSegment s, isLocalChar c = false) →
      validate_mail_address s = Except.error (s ++ " is not a valid mail address.")) := by
  refine ⟨?_, ?_, ?_, ?_⟩
  · intro s h
    rw [canonicalMailShape] at h
    simp [validate_mail_address, pythonDollarMatch, h]
  · intro s h
    refine validate_error_of_false s (pythonDollarMatch_false s ?_ ?_)
    · exact not_matchFull_of_noAt h
    · exact not_matchFull_of_noAt (fun hm => h (mem_of_mem_dropLast hm))
  · intro s hAt h
    rw [domainSegment] at h
    exact validate_error_of_false s
      (pythonDollarMatch_false s (not_matchFull_of_noDot h) (not_matchFull_dropLast_of_noDot h))
  · intro s h
    rw [localSegment] at h
    exact validate_error_of_false s
      (pythonDollarMatch_false s (not_matchFull_of_badLocal h) (not_matchFull_dropLast_of_badLocal h))

/-- Witness for claim C2: a canonical address is accepted; a string with
no at sign, a string whose domain has no dot, and a string with a space in
the local part are each rejected with the naming error. -/
theorem claim_C2_witness :
    validate_mail_address "a@b.com" = Except.ok () ∧
    validate_mail_address "abc" = Except.error "abc is not a valid mail address." ∧
    validate_mail_address "a@bcom" = Except.error "a@bcom is not a valid mail address." ∧
    validate_mail_address "a b@c.com" = Except.error "a b@c.com is not a valid mail address." :=
  ⟨claim_C2.1 "a@b.com" (by decide),
   claim_C2.2.1 "abc" (by decide),
   claim_C2.2.2.1 "a@bcom" (by decide) (by decide),
   claim_C2.2.2.2 "a b@c.com" (by decide)⟩

/-- Claim C3 counterexample: the tab character lies outside the printable
ASCII range, so the claim requires it to be turned into its decimal
numeric character reference, but encode_html_characters leaves it
unchanged (only code points above 127 are replaced). -/
theorem claim_C3_counterexample :
    encode_html_characters "\t" = "\t" ∧ ("\t" : String) ≠ "&#9;" :=
  ⟨by decide, by decide⟩

/-- Claim C3 (amended): the HTML encoding replaces every character outside
the ASCII range (code point above 127) with its decimal numeric character
reference, replaces every line feed with the HTML break marker, and alters
no other character; on the concrete input the accented e becomes the
reference 233 and the line feed becomes the break marker. -/
theorem claim_C3 :
    (∀ s : String,
      encode_html_characters s = String.mk (List.flatten (s.data.map amendedEncodeChar))) ∧
    encode_html_characters "héllo\nworld" = "h&#233;llo<br>world" := by
  constructor
  · intro s
    unfold encode_html_characters
    rw [encode_eq_amended]
  · decide

/-- Claim C5: the derived filename is the timestamp, the recipient tag and
the subject tag joined by underscores with the msg extension; for a list
the recipient tag is the part of the first element before the at sign with
the others suffix exactly when the list has more than one element; for a
string it is the local part when the string contains an at sign and the
string itself otherwise; and the concrete example from the specification
evaluates as stated. -/
theorem claim_C5 :
    (∀ (now : DateTime) (r : String) (rs : List String) (subject : String),
      generate_msg_filename now (PyVal.list (r :: rs)) subject =
        Except.ok (strftimeYmdHMS now ++ "_" ++
          (beforeAt r ++ (if rs = [] then "" else "+others")) ++ "_" ++
          subjectClean subject ++ ".msg")) ∧
    (∀ (now : DateTime) (s subject : String),
      generate_msg_filename now (PyVal.str s) subject =
        Except.ok (strftimeYmdHMS now ++ "_" ++
          (if s.data.contains '@' then beforeAt s else s) ++ "_" ++
          subjectClean subject ++ ".msg")) ∧
    generate_msg_filename ⟨2024, 1, 2, 3, 4, 5⟩ (PyVal.list ["a@x.com", "b@y.com"]) "Hello World" =
      Except.ok "20240102_030405_a+others_Hello_World.msg" := by
  refine ⟨?_, ?_, by decide⟩
  · intro now r rs subject
    cases rs with
    | nil => simp [generate_msg_filename]
    | cons b t =>
      have h1 : (r :: b :: t).length > 1 := by
        simp [List.length_cons]
      simp [generate_msg_filename, h1]
  · intro now s subject
    rfl

/-- Claim C6: for a validated address and either role tag, the recipient
record has exactly the given role, the address and display name verbatim,
the SMTP protocol tag, and the individual mail user display and object
kinds. -/
theorem claim_C6 :
    ∀ (addr : String) (rt : RecipientType),
      validate_mail_address addr = Except.ok () →
      prepare_recipients addr rt = Except.ok
        { address_type := "SMTP", display_type := DisplayType.MAIL_USER,
          object_type := ObjectType.MAIL_USER, display_name := addr,
          email_address := addr, recipient_type := rt } := by
  intro addr rt h
  unfold prepare_recipients
  rw [h]
  rfl

/-- Witness for claim C6: the theorem applied to a concrete valid address
and the primary role. -/
theorem claim_C6_witness :
    prepare_recipients "a@b.com" RecipientType.TO = Except.ok
      { address_type := "SMTP", display_type := DisplayType.MAIL_USER,
        object_type := ObjectType.MAIL_USER, display_name := "a@b.com",
        email_address := "a@b.com", recipient_type := RecipientType.TO } :=
  claim_C6 "a@b.com" RecipientType.TO (by decide)

/-- Claim C1 counterexample: with a valid to address and an integer cc,
generate_mail does raise the cc type error, but a Recipient object for the
to field has already been constructed, so the error is not raised without
constructing any recipient. -/
theorem claim_C1_counterexample :
    (generate_mail ⟨2024, 1, 2, 3, 4, 5⟩ (PyVal.str "a@b.com") (PyVal.int 123) "s" "b").error =
      some (PyError.typeError ccTypeMsg) ∧
    (generate_mail ⟨2024, 1, 2, 3, 4, 5⟩ (PyVal.str "a@b.com") (PyVal.int 123) "s" "b").constructed ≠
      [] :=
  ⟨by decide, by decide⟩

/-- Claim C1 (amended): for every cc value that is neither a string nor a
list and every to that passes primary processing, generate_mail raises the
cc type error; no Copy recipient is constructed (every recipient
constructed so far is a Primary one for the to field) and the external
message object is untouched. -/
theorem claim_C1 :
    ∀ (now : DateTime) (to_ : PyVal) (n : Int) (subject body : String),
      (processTo to_).error = none →
      (generate_mail now to_ (PyVal.int n) subject body).error =
          some (PyError.typeError ccTypeMsg) ∧
      (∀ rcp ∈ (generate_mail now to_ (PyVal.int n) subject body).constructed,
          rcp.recipient_type = RecipientType.TO) ∧
      (generate_mail now to_ (PyVal.int n) subject body).message = MessageObj.blank := by
  intro now to_ n subject body h
  have hcc : processCc (PyVal.int n) =
      { constructed := [], display := "", error := some (PyError.typeError ccTypeMsg) } := by
    simp [processCc]
  refine ⟨?_, ?_, ?_⟩
  · simp [generate_mail, h, hcc]
  · intro rcp hr
    simp [generate_mail, h, hcc] at hr
    exact processTo_types to_ rcp hr
  · simp [generate_mail, h, hcc]

/-- Witness for claim C1: the amended theorem applied to a concrete valid
to address and the integer 123 as cc. -/
theorem claim_C1_witness :
    (generate_mail ⟨2024, 1, 2, 3, 4, 5⟩ (PyVal.str "a@b.com") (PyVal.int 123) "s" "b").error =
        some (PyError.typeError ccTypeMsg) ∧
    (∀ rcp ∈ (generate_mail ⟨2024, 1, 2, 3, 4, 5⟩ (PyVal.str "a@b.com")
        (PyVal.int 123) "s" "b").constructed, rcp.recipient_type = RecipientType.TO) ∧
    (generate_mail ⟨2024, 1, 2, 3, 4, 5⟩ (PyVal.str "a@b.com") (PyVal.int 123) "s" "b").message =
        MessageObj.blank :=
  claim_C1 ⟨2024, 1, 2, 3, 4, 5⟩ (PyVal.str "a@b.com") 123 "s" "b" (by decide)

/-- Claim C4: when generate_mail ends with a validation error or a type
error (the failures of steps 1 to 3), the external message object is still
blank: no field set, no recipient appended, and no file written. -/
theorem claim_C4 :
    ∀ (now : DateTime) (to_ cc : PyVal) (subject body : String) (e : PyError),
      (generate_mail now to_ cc subject body).error = some e →
      e.isValidationOrType = true →
      (generate_mail now to_ cc subject body).message = MessageObj.blank ∧
      (generate_mail now to_ cc subject body).message.saved = none := by
  intro now to_ cc subject body e he hv
  cases h1 : (processTo to_).error with
  | some e1 => constructor <;> simp [generate_mail, h1, MessageObj.blank]
  | none =>
    cases h2 : (processCc cc).error with
    | some e2 => constructor <;> simp [generate_mail, h1, h2, MessageObj.blank]
    | none =>
      cases h3 : generate_msg_filename now to_ subject with
      | ok fn => simp [generate_mail, h1, h2, h3] at he
      | error e3 =>
        have he3 : e3 = PyError.indexError := filename_error_shape h1 h3
        subst he3
        simp [generate_mail, h1, h2, h3] at he
        subst he
        exact absurd hv (by decide)

/-- Witness for claim C4: a to address that fails validation leaves the
message object blank and writes no file. -/
theorem claim_C4_witness :
    (generate_mail ⟨2024, 1, 2, 3, 4, 5⟩ (PyVal.str "bad") (PyVal.str "") "s" "b").message =
        MessageObj.blank ∧
    (generate_mail ⟨2024, 1, 2, 3, 4, 5⟩ (PyVal.str "bad") (PyVal.str "") "s" "b").message.saved =
        none :=
  claim_C4 ⟨2024, 1, 2, 3, 4, 5⟩ (PyVal.str "bad") (PyVal.str "") "s" "b"
    (PyError.assertionError "bad is not a valid mail address.") (by decide) (by decide)

/-- Claim C7: with list inputs whose addresses are all valid, the message
receives all Primary recipients in input order followed by all Copy
recipients in input order, and the display strings are the raw addresses
joined with a semicolon and a space; the concrete end-to-end call receives
exactly one Primary recipient followed by two Copy recipients. -/
theorem claim_C7 :
    (∀ (now : DateTime) (tos ccs : List String) (subject body : String),
      tos.all (fun a => pythonDollarMatch a) = true →
      ccs.all (fun a => pythonDollarMatch a) = true →
      ccs ≠ [] →
      (generate_mail now (PyVal.list tos) (PyVal.list ccs) subject body).message.recipients =
          tos.map (fun a => mkRecipient a RecipientType.TO) ++
          ccs.map (fun a => mkRecipient a RecipientType.CC) ∧
      (generate_mail now (PyVal.list tos) (PyVal.list ccs) subject body).message.display_to =
          some (String.intercalate "; " tos) ∧
      (generate_mail now (PyVal.list tos) (PyVal.list ccs) subject body).message.display_cc =
          some (String.intercalate "; " ccs)) ∧
    (generate_mail ⟨2024, 1, 2, 3, 4, 5⟩ (PyVal.str "a@b.com")
        (PyVal.list ["c@d.com", "e@f.com"]) "Status Update" "Line1\nLine2").message.recipients.map
          (fun rcp => rcp.recipient_type) =
      [RecipientType.TO, RecipientType.CC, RecipientType.CC] := by
  constructor
  · intro now tos ccs subject body hto hcc hne
    have hTo : processTo (PyVal.list tos) =
        { constructed := tos.map (fun a => mkRecipient a RecipientType.TO),
          display := String.intercalate "; " tos, error := none } := by
      simp [processTo, processRecipientList_ok tos RecipientType.TO hto]
    have hCc : processCc (PyVal.list ccs) =
        { constructed := ccs.map (fun a => mkRecipient a RecipientType.CC),
          display := String.intercalate "; " ccs, error := none } := by
      simp [processCc, processRecipientList_ok ccs RecipientType.CC hcc]
    refine ⟨?_, ?_, ?_⟩ <;>
      cases h3 : generate_msg_filename now (PyVal.list tos) subject <;>
        simp [generate_mail, assembledMessage, hTo, hCc, h3]
  · decide

/-- Witness for claim C7: the universally quantified part applied to
concrete singleton lists of valid addresses. -/
theorem claim_C7_witness :
    (generate_mail ⟨2024, 1, 2, 3, 4, 5⟩ (PyVal.list ["a@x.com"])
        (PyVal.list ["c@d.com"]) "s" "b").message.recipients =
        ["a@x.com"].map (fun a => mkRecipient a RecipientType.TO) ++
        ["c@d.com"].map (fun a => mkRecipient a RecipientType.CC) ∧
    (generate_mail ⟨2024, 1, 2, 3, 4, 5⟩ (PyVal.list ["a@x.com"])
        (PyVal.list ["c@d.com"]) "s" "b").message.display_to =
        some (String.intercalate "; " ["a@x.com"]) ∧
    (generate_mail ⟨2024, 1, 2, 3, 4, 5⟩ (PyVal.list ["a@x.com"])
        (PyVal.list ["c@d.com"]) "s" "b").message.display_cc =
        some (String.intercalate "; " ["c@d.com"]) :=
  claim_C7.1 ⟨2024, 1, 2, 3, 4, 5⟩ ["a@x.com"] ["c@d.com"] "s" "b"
    (by decide) (by decide) (by decide)

/-- Claim C8: with a valid single to address and the empty string as cc,
generate_mail succeeds with exactly one Primary recipient, zero Copy
recipients and an empty display string for cc; the empty string skips copy
processing entirely, with no validation and no type error. -/
theorem claim_C8 :
    ∀ (now : DateTime) (s subject body : String),
      pythonDollarMatch s = true →
      (generate_mail now (PyVal.str s) (PyVal.str "") subject body).error = none ∧
      (generate_mail now (PyVal.str s) (PyVal.str "") subject body).message.recipients =
          [mkRecipient s RecipientType.TO] ∧
      (generate_mail now (PyVal.str s) (PyVal.str "") subject body).message.display_cc =
          some "" ∧
      processCc (PyVal.str "") = { constructed := [], display := "", error := none } := by
  intro now s subject body h
  have hTo : processTo (PyVal.str s) =
      { constructed := [mkRecipient s RecipientType.TO], display := s, error := none } := by
    simp [processTo, prepare_ok_of_match RecipientType.TO h]
  refine ⟨?_, ?_, ?_, rfl⟩ <;>
    simp [generate_mail, hTo, processCc, assembledMessage, generate_msg_filename]

/-- Witness for claim C8: the theorem applied to a concrete valid single
address. -/
theorem claim_C8_witness :
    (generate_mail ⟨2024, 1, 2, 3, 4, 5⟩ (PyVal.str "u@v.com") (PyVal.str "") "s" "b").error =
        none ∧
    (generate_mail ⟨2024, 1, 2, 3, 4, 5⟩ (PyVal.str "u@v.com")
        (PyVal.str "") "s" "b").message.recipients = [mkRecipient "u@v.com" RecipientType.TO] ∧
    (generate_mail ⟨2024, 1, 2, 3, 4, 5⟩ (PyVal.str "u@v.com")
        (PyVal.str "") "s" "b").message.display_cc = some "" ∧
    processCc (PyVal.str "") = { constructed := [], display := "", error := none } :=
  claim_C8 ⟨2024, 1, 2, 3, 4, 5⟩ "u@v.com" "s" "b" (by decide)

/-- Claim C9: whenever assembly reaches the body step, the RTF body is the
UTF-8 byte encoding of the fixed preamble, the HTML-safe body and the
closing brace; for the body hi the bytes are exactly those of the
specified string. -/
theorem claim_C9 :
    (∀ (now : DateTime) (to_ cc : PyVal) (subject body : String),
      (processTo to_).error = none →
      (processCc cc).error = none →
      (generate_mail now to_ cc subject body).message.body_rtf =
        some (strUtf8 (rtfPreamble ++ encode_html_characters body ++ "\x7d"))) ∧
    (generate_mail ⟨2024, 1, 2, 3, 4, 5⟩ (PyVal.str "a@b.com")
        (PyVal.str "") "s" "hi").message.body_rtf =
      some (strUtf8 "\x7b\\rtf1\\ansi\\ansicpg1252\\fromhtml1 \\htmlrtf0 hi\x7d") := by
  constructor
  · intro now to_ cc subject body h1 h2
    cases h3 : generate_msg_filename now to_ subject <;>
      simp [generate_mail, assembledMessage, h1, h2, h3]
  · decide

/-- Witness for claim C9: the universally quantified part applied to a
concrete run whose body contains a non-ASCII character. -/
theorem claim_C9_witness :
    (generate_mail ⟨2024, 1, 2, 3, 4, 5⟩ (PyVal.str "a@b.com")
        (PyVal.str "") "subj" "hé").message.body_rtf =
      some (strUtf8 (rtfPreamble ++ encode_html_characters "hé" ++ "\x7d")) :=
  claim_C9.1 ⟨2024, 1, 2, 3, 4, 5⟩ (PyVal.str "a@b.com") (PyVal.str "") "subj" "hé"
    (by decide) (by decide)

/-- Claim C10: with the empty list as to, primary processing builds zero
recipients and an empty display string without error; the filename deriver
indexes the first element of the empty list and raises the index error; so
every such call fails before save and no file is written, and when cc
processing succeeds the uncaught error is exactly the index error. -/
theorem claim_C10 :
    processTo (PyVal.list []) = { constructed := [], display := "", error := none } ∧
    (∀ (now : DateTime) (subject : String),
      generate_msg_filename now (PyVal.list []) subject = Except.error PyError.indexError) ∧
    (∀ (now : DateTime) (cc : PyVal) (subject body : String),
      (generate_mail now (PyVal.list []) cc subject body).error.isSome = true ∧
      (generate_mail now (PyVal.list []) cc subject body).message.saved = none) ∧
    (∀ (now : DateTime) (cc : PyVal) (subject body : String),
      (processCc cc).error = none →
      (generate_mail now (PyVal.list []) cc subject body).error = some PyError.indexError) := by
  refine ⟨rfl, fun now subject => rfl, ?_, ?_⟩
  · intro now cc subject body
    cases h2 : (processCc cc).error with
    | some e => constructor <;> simp [generate_mail, processTo, processRecipientList, h2, MessageObj.blank]
    | none =>
      constructor <;>
        simp [generate_mail, processTo, processRecipientList, h2,
          generate_msg_filename, assembledMessage]
  · intro now cc subject body h2
    simp [generate_mail, processTo, processRecipientList, h2, generate_msg_filename]

/-- Witness for claim C10: the empty to list with an empty cc string ends
in the index error and no saved file. -/
theorem claim_C10_witness :
    (generate_mail ⟨2024, 1, 2, 3, 4, 5⟩ (PyVal.list []) (PyVal.str "") "s" "b").error =
      some PyError.indexError :=
  claim_C10.2.2.2 ⟨2024, 1, 2, 3, 4, 5⟩ (PyVal.str "") "s" "b" (by decide)
